import Mathlib

set_option maxRecDepth 100000

/-!
Verification of the SFMT (SIMD-oriented Fast Mersenne Twister) generator of
src/CvGameCoreDLL_Expansion2/SFMT/SFMT.cpp (class SFMersenneTwister).

The internal state is embedded through its 32-bit word view: the C++ code
accesses the state through the pointer psfmt32 = &m_sfmt.state[0].u[0], an
array of SFMT_N32 unsigned 32-bit words, together with the index field
m_sfmt.idx.  Machine 32-bit arithmetic is Nat arithmetic reduced mod 2 ^ 32
at every write, exactly where the C code wraps.
-/

/-- Number of 128-bit state words.  The parameter headers (SFMT-params.h) are
not part of src/; the value is fixed by the doc comments in SFMT.cpp, which
state the minimum fill sizes 624 and 312, i.e. (MEXP / 128 + 1) = 156 for
MEXP = 19937. -/
def SFMT_N : Nat := 156

/-- Number of 32-bit words of state: SFMT_N * 4 = 624. -/
def SFMT_N32 : Nat := SFMT_N * 4

/-- Number of 64-bit words of state: SFMT_N * 2 = 312. -/
def SFMT_N64 : Nat := SFMT_N * 2

/-- Modelled from the spec: the four parity-check constants SFMT_PARITY1..4
live in SFMT-params.h, which is not under src/.  They are the published
parameter-set constants for the MEXP = 19937 generator, the parameter set
whose minimum array sizes 624 and 312 are quoted in the SFMT.cpp doc
comments. -/
def SFMT_PARITY : List Nat := [0x00000001, 0x00000000, 0x00000000, 0x13c9e684]

/-- Unsigned 32-bit wraparound, applied at every write of a uint32_t. -/
def u32 (x : Nat) : Nat := x % 2 ^ 32

/-- Unsigned 32-bit subtraction a - b (wraparound as on uint32_t). -/
def sub32 (a b : Nat) : Nat := (a + (2 ^ 32 - b % 2 ^ 32)) % 2 ^ 32

/-- SFMersenneTwister::func1: (x ^ (x >> 27)) * 1664525 on uint32_t. -/
def func1 (x : Nat) : Nat := u32 ((x ^^^ (x >>> 27)) * 1664525)

/-- SFMersenneTwister::func2: (x ^ (x >> 27)) * 1566083941 on uint32_t. -/
def func2 (x : Nat) : Nat := u32 ((x ^^^ (x >>> 27)) * 1566083941)

/-- A generator instance: the state array in its 32-bit word view (psfmt32,
SFMT_N32 words) together with the int index field m_sfmt.idx. -/
structure SfmtState where
  state : List Nat
  idx : Int
deriving DecidableEq, Repr

/-- First half of period_certification: inner = XOR over i = 0..3 of
psfmt32[i] & parity[i]. -/
def innerOf (st : List Nat) : Nat :=
  (List.range 4).foldl (fun inner i => inner ^^^ (st.getD i 0 &&& SFMT_PARITY.getD i 0)) 0

/-- The folding loop of period_certification:
for (i = 16; i > 0; i >>= 1) inner ^= inner >> i.
(The C variable is an int, so the shifts are arithmetic shifts; the sign
extension only ever touches bit positions that are never folded back into
bit 0, and only bit 0 survives the final mask, so the logical-shift model
computes the same certified bit.) -/
def foldShift (inner i : Nat) : Nat :=
  if 0 < i then foldShift (inner ^^^ (inner >>> i)) (i >>> 1) else inner
termination_by i
decreasing_by
  simp only [Nat.shiftRight_one]
  omega

/-- The full parity fold of period_certification: run the shift-fold loop
starting at 16 and mask the result to its lowest bit (inner &= 1). -/
def innerFold (inner : Nat) : Nat := foldShift inner 16 &&& 1

/-- The inner correction scan of period_certification: starting from
work = 1 << j, find the first bit of the parity constant p that is set,
returning the corresponding work mask, or none after 32 bits. -/
def certFind (p work j : Nat) : Option Nat :=
  if j < 32 then
    if work &&& p ≠ 0 then some work else certFind p (work <<< 1) (j + 1)
  else none
termination_by 32 - j

/-- The outer correction scan of period_certification: for i = 0..3, scan the
bits of parity[i]; on the first hit, flip that bit of psfmt32[i] and return. -/
def certApply (st : List Nat) (i : Nat) : List Nat :=
  if i < 4 then
    match certFind (SFMT_PARITY.getD i 0) 1 0 with
    | some work => st.set i (st.getD i 0 ^^^ work)
    | none => certApply st (i + 1)
  else st
termination_by 4 - i

/-- SFMersenneTwister::period_certification: compute the parity fold of the
state; if it is 1 the state is left unchanged, otherwise flip the first set
parity bit found by the scan. -/
def period_certification (s : SfmtState) : SfmtState :=
  if innerFold (innerOf s.state) = 1 then s
  else { s with state := certApply s.state 0 }

/-! ### Period certification, as the spec section 4.4 states it -/

/-- The dot product of section 4.4, written out as the claim states it:
XOR over i = 0..3 of state word i AND parity constant i. -/
def specInnerProduct (st : List Nat) : Nat :=
  (st.getD 0 0 &&& SFMT_PARITY.getD 0 0) ^^^ (st.getD 1 0 &&& SFMT_PARITY.getD 1 0) ^^^
    (st.getD 2 0 &&& SFMT_PARITY.getD 2 0) ^^^ (st.getD 3 0 &&& SFMT_PARITY.getD 3 0)

/-- The parity fold as the claim states it: fold inner through the shift
amounts 16, 8, 4, 2, 1 in that order and mask the result to one bit. -/
def specFoldBit (x : Nat) : Nat :=
  ([16, 8, 4, 2, 1].foldl (fun v s => v ^^^ (v >>> s)) x) &&& 1

/-- The first constant/bit pair, scanning parity constants in index order
0..3 and bit positions 0..31 from the least significant bit, whose parity
constant has that bit set. -/
def specFirstFlip : Option (Nat × Nat) :=
  ((List.range 128).map (fun k => (k / 32, k % 32))).find?
    (fun p => (SFMT_PARITY.getD p.1 0).testBit p.2)

/-- Period certification as claim C4 states it: if the folded bit is 1 the
state is untouched; otherwise exactly the first constant/bit pair found by
the scan is flipped in the corresponding word. -/
def specPeriodCert (s : SfmtState) : SfmtState :=
  if specFoldBit (specInnerProduct s.state) = 1 then s
  else
    match specFirstFlip with
    | some (i, j) => { s with state := s.state.set i (s.state.getD i 0 ^^^ (1 <<< j)) }
    | none => s

/-! ### Lemmas about the parity fold -/

theorem innerOf_eq (st : List Nat) :
    innerOf st = (st.getD 0 0 &&& 1) ^^^ (st.getD 3 0 &&& 0x13c9e684) := by
  rw [innerOf, show List.range 4 = [0, 1, 2, 3] from rfl]
  simp [SFMT_PARITY]

theorem specInnerProduct_eq (st : List Nat) : specInnerProduct st = innerOf st := by
  rw [specInnerProduct, innerOf_eq]
  simp [SFMT_PARITY]

theorem xor_one_shiftRight (y s : Nat) (hs : 0 < s) : (y ^^^ 1) >>> s = y >>> s := by
  apply Nat.eq_of_testBit_eq
  intro k
  rw [Nat.testBit_shiftRight, Nat.testBit_shiftRight, Nat.testBit_xor]
  rw [show (1 : Nat) = 2 ^ 0 from rfl, Nat.testBit_two_pow_of_ne (by omega)]
  simp

theorem foldShift_xor_one (x s : Nat) : foldShift (x ^^^ 1) s = foldShift x s ^^^ 1 := by
  conv_lhs => rw [foldShift]
  conv_rhs => rw [foldShift]
  by_cases h : 0 < s
  · rw [if_pos h, if_pos h, xor_one_shiftRight x s h,
      Nat.xor_assoc, Nat.xor_comm 1 (x >>> s), ← Nat.xor_assoc]
    exact foldShift_xor_one (x ^^^ x >>> s) (s >>> 1)
  · rw [if_neg h, if_neg h]
termination_by s
decreasing_by
  simp only [Nat.shiftRight_one]
  omega

theorem innerFold_xor_one (x : Nat) : innerFold (x ^^^ 1) = innerFold x ^^^ 1 := by
  rw [innerFold, innerFold, foldShift_xor_one, Nat.and_xor_distrib_right,
    show (1 : Nat) &&& 1 = 1 from rfl]

theorem innerFold_lt_two (x : Nat) : innerFold x < 2 := by
  rw [innerFold, Nat.and_one_is_mod]
  exact Nat.mod_lt _ (by omega)

theorem certFind_parity0 : certFind 1 1 0 = some 1 := by
  rw [certFind]
  norm_num

theorem certApply_zero (st : List Nat) : certApply st 0 = st.set 0 (st.getD 0 0 ^^^ 1) := by
  rw [certApply, if_pos (by norm_num : (0 : Nat) < 4),
    show SFMT_PARITY.getD 0 0 = 1 from rfl, certFind_parity0]

theorem getD_set_zero (st : List Nat) (v : Nat) (h : 0 < st.length) :
    (st.set 0 v).getD 0 0 = v := by
  rw [List.getD_eq_getElem _ _ (by simpa using h)]
  simp

theorem getD_set_other (st : List Nat) (v : Nat) (i j : Nat) (hij : i ≠ j) :
    (st.set i v).getD j 0 = st.getD j 0 := by
  simp [List.getD_eq_getElem?_getD, List.getElem?_set_ne hij]

theorem innerOf_flip (st : List Nat) (h : 0 < st.length) :
    innerOf (st.set 0 (st.getD 0 0 ^^^ 1)) = innerOf st ^^^ 1 := by
  rw [innerOf_eq, innerOf_eq, getD_set_zero st _ h, getD_set_other st _ 0 3 (by omega),
    Nat.and_xor_distrib_right, show (1 : Nat) &&& 1 = 1 from rfl,
    Nat.xor_assoc, Nat.xor_comm 1 _, ← Nat.xor_assoc]

theorem period_certification_fold_one (s : SfmtState) (h : 0 < s.state.length) :
    innerFold (innerOf (period_certification s).state) = 1 := by
  rw [period_certification]
  by_cases h1 : innerFold (innerOf s.state) = 1
  · rwa [if_pos h1]
  · rw [if_neg h1]
    show innerFold (innerOf (certApply s.state 0)) = 1
    rw [certApply_zero, innerOf_flip s.state h, innerFold_xor_one]
    have h2 := innerFold_lt_two (innerOf s.state)
    have h0 : innerFold (innerOf s.state) = 0 := by omega
    rw [h0]
    rfl

theorem foldShift_pos (x i : Nat) (h : 0 < i) :
    foldShift x i = foldShift (x ^^^ (x >>> i)) (i >>> 1) := by
  conv_lhs => rw [foldShift]
  rw [if_pos h]

theorem foldShift_zero (x : Nat) : foldShift x 0 = x := by
  rw [foldShift]
  norm_num

theorem innerFold_eq_specFoldBit (x : Nat) : innerFold x = specFoldBit x := by
  rw [innerFold, specFoldBit,
    foldShift_pos _ 16 (by norm_num), show (16 : Nat) >>> 1 = 8 from rfl,
    foldShift_pos _ 8 (by norm_num), show (8 : Nat) >>> 1 = 4 from rfl,
    foldShift_pos _ 4 (by norm_num), show (4 : Nat) >>> 1 = 2 from rfl,
    foldShift_pos _ 2 (by norm_num), show (2 : Nat) >>> 1 = 1 from rfl,
    foldShift_pos _ 1 (by norm_num), show (1 : Nat) >>> 1 = 0 from rfl,
    foldShift_zero]
  rfl

theorem specFirstFlip_eq : specFirstFlip = some (0, 0) := by decide

/-- Claim C4: period_certification computes inner as the XOR over i = 0..3 of
word[i] AND parity[i], folds it to one bit through shifts 16, 8, 4, 2, 1 and a
1-bit mask; if the bit is 1 the state is left unchanged, and if it is 0 exactly
the first constant/bit pair (scanning constants 0..3, bits from the LSB) whose
parity constant has the bit set is flipped, so at most one bit of the state
changes and the index never does.  With the MEXP-19937 parity constants the
first such pair is bit 0 of word 0. -/
theorem claim4_period_certification (s : SfmtState) :
    period_certification s = specPeriodCert s ∧
    (period_certification s).idx = s.idx ∧
    ((period_certification s).state = s.state ∨
      (period_certification s).state = s.state.set 0 (s.state.getD 0 0 ^^^ 1)) := by
  refine ⟨?_, ?_, ?_⟩
  · rw [period_certification, specPeriodCert, specInnerProduct_eq,
      ← innerFold_eq_specFoldBit, specFirstFlip_eq]
    by_cases h : innerFold (innerOf s.state) = 1
    · rw [if_pos h, if_pos h]
    · rw [if_neg h, if_neg h, certApply_zero]
      norm_num
  · rw [period_certification]
    split <;> rfl
  · rw [period_certification]
    split
    · exact Or.inl rfl
    · exact Or.inr (by rw [certApply_zero])

/-- Claim C10: applying period_certification twice in immediate succession
yields exactly the state of applying it once. -/
theorem claim10_certification_idempotent (s : SfmtState) :
    period_certification (period_certification s) = period_certification s := by
  by_cases hlen : 0 < s.state.length
  · conv_lhs => rw [period_certification]
    rw [if_pos (period_certification_fold_one s hlen)]
  · have hst : s.state = [] := List.length_eq_zero.mp (by omega)
    have hfix : period_certification s = s := by
      rw [period_certification]
      split
      · rfl
      · rw [certApply_zero, hst]
        cases s
        simp_all
    rw [hfix, hfix]

/-! ### Scalar seeding: sfmt_init_gen_rand -/

/-- The word sequence written by the sfmt_init_gen_rand loop: psfmt32[0] is
the (32-bit) seed and psfmt32[i] = 1812433253 * (psfmt32[i-1] ^
(psfmt32[i-1] >> 30)) + i on uint32_t. -/
def initWord (seed : Nat) : Nat → Nat
  | 0 => u32 seed
  | i + 1 => u32 (1812433253 * (initWord seed i ^^^ (initWord seed i >>> 30)) + (i + 1))

/-- The initialization loop of sfmt_init_gen_rand, writing words i ..
SFMT_N32 - 1 in place, each from its predecessor. -/
def initLoop (st : List Nat) (i : Nat) : List Nat :=
  if i < SFMT_N32 then
    initLoop
      (st.set i (u32 (1812433253 * (st.getD (i - 1) 0 ^^^ (st.getD (i - 1) 0 >>> 30)) + i)))
      (i + 1)
  else st
termination_by SFMT_N32 - i

/-- SFMersenneTwister::sfmt_init_gen_rand: psfmt32[0] = seed, run the loop
from index 1, set idx = SFMT_N32 and certify the period. -/
def sfmt_init_gen_rand (seed : Nat) (s : SfmtState) : SfmtState :=
  period_certification
    { state := initLoop (s.state.set 0 (u32 seed)) 1, idx := (SFMT_N32 : Int) }

theorem getD_set_self (st : List Nat) (v : Nat) (k : Nat) (h : k < st.length) :
    (st.set k v).getD k 0 = v := by
  rw [List.getD_eq_getElem _ _ (by simpa using h)]
  simp

theorem initLoop_eq_map (seed : Nat) (st : List Nat) (i : Nat)
    (hlen : st.length = SFMT_N32) (hi : 1 ≤ i)
    (hpre : ∀ k, k < i → st.getD k 0 = initWord seed k) :
    initLoop st i = (List.range SFMT_N32).map (initWord seed) := by
  rw [initLoop]
  by_cases h : i < SFMT_N32
  · rw [if_pos h]
    apply initLoop_eq_map seed _ (i + 1)
    · rw [List.length_set]
      exact hlen
    · omega
    · intro k hk
      by_cases hki : k = i
      · subst hki
        rw [getD_set_self _ _ _ (by omega)]
        rw [hpre (k - 1) (by omega)]
        obtain ⟨m, rfl⟩ : ∃ m, k = m + 1 := ⟨k - 1, by omega⟩
        simp [initWord]
      · rw [getD_set_other _ _ i k (by omega)]
        exact hpre k (by omega)
  · rw [if_neg h]
    have hlen2 : st.length = ((List.range SFMT_N32).map (initWord seed)).length := by
      simp [hlen]
    apply List.ext_getElem hlen2
    intro k hk1 hk2
    have hk : k < SFMT_N32 := by rw [hlen] at hk1; exact hk1
    have hgd := hpre k (by omega)
    rw [List.getD_eq_getElem st 0 hk1] at hgd
    rw [hgd]
    simp
termination_by SFMT_N32 - i

theorem sfmt_init_gen_rand_eq (seed : Nat) (s : SfmtState)
    (hlen : s.state.length = SFMT_N32) :
    sfmt_init_gen_rand seed s =
      period_certification
        { state := (List.range SFMT_N32).map (initWord seed), idx := (SFMT_N32 : Int) } := by
  rw [sfmt_init_gen_rand]
  have hset : initLoop (s.state.set 0 (u32 seed)) 1 = (List.range SFMT_N32).map (initWord seed) := by
    apply initLoop_eq_map
    · simp [hlen]
    · omega
    · intro k hk
      have hk0 : k = 0 := by omega
      subst hk0
      rw [getD_set_self _ _ _ (by rw [hlen]; norm_num [SFMT_N32, SFMT_N])]
      rfl
  rw [hset]

/-- The scalar-seeding recurrence exactly as claim C3 states it for a 32-bit
seed: word[0] = seed and word[i] = 1812433253 * (word[i-1] XOR
(word[i-1] >> 30)) + i, reduced mod 2 ^ 32. -/
def specInitWord (seed : Nat) : Nat → Nat
  | 0 => seed
  | i + 1 => (1812433253 * (specInitWord seed i ^^^ (specInitWord seed i >>> 30)) + (i + 1)) % 2 ^ 32

theorem specInitWord_eq (seed : Nat) (hseed : seed < 2 ^ 32) :
    ∀ i, specInitWord seed i = initWord seed i
  | 0 => by
    simp only [specInitWord, initWord, u32]
    omega
  | i + 1 => by simp [specInitWord, initWord, u32, specInitWord_eq seed hseed i]

/-- Claim C3: for every 32-bit seed, sfmt_init_gen_rand sets the state viewed
as 32-bit words to word[0] = seed and word[i] = 1812433253 * (word[i-1] XOR
(word[i-1] >> 30)) + i in wrapping unsigned 32-bit arithmetic for
i = 1 .. N32 - 1, sets Index = N32, and then applies Period Certification. -/
theorem claim3_scalar_seeding (seed : Nat) (s : SfmtState)
    (hseed : seed < 2 ^ 32) (hlen : s.state.length = SFMT_N32) :
    sfmt_init_gen_rand seed s =
      period_certification
        { state := (List.range SFMT_N32).map (specInitWord seed), idx := (SFMT_N32 : Int) } := by
  rw [sfmt_init_gen_rand_eq seed s hlen]
  have hmap : (List.range SFMT_N32).map (specInitWord seed) =
      (List.range SFMT_N32).map (initWord seed) := by
    apply List.map_congr_left
    intro a _
    exact specInitWord_eq seed hseed a
  rw [hmap]

/-- Witness for claim C3: seed 1234 on a concrete zero-filled instance. -/
theorem claim3_witness :
    sfmt_init_gen_rand 1234 ⟨List.replicate SFMT_N32 0, 0⟩ =
      period_certification
        { state := (List.range SFMT_N32).map (specInitWord 1234), idx := (SFMT_N32 : Int) } :=
  claim3_scalar_seeding 1234 ⟨List.replicate SFMT_N32 0, 0⟩ (by norm_num) (by simp)

/-! ### Array seeding: sfmt_init_by_array -/

/-- The lag selection of sfmt_init_by_array, thresholding on size = SFMT_N * 4. -/
def lagOf (size : Nat) : Nat :=
  if 623 ≤ size then 11
  else if 68 ≤ size then 7
  else if 39 ≤ size then 5
  else 3

/-- int size = SFMT_N * 4 in sfmt_init_by_array. -/
def iba_size : Nat := SFMT_N * 4

/-- The lag actually used by sfmt_init_by_array. -/
def iba_lag : Nat := lagOf iba_size

/-- int mid = (size - lag) / 2 in sfmt_init_by_array. -/
def iba_mid : Nat := (iba_size - iba_lag) / 2

/-- count = key_length + 1 if key_length + 1 > SFMT_N32, else SFMT_N32. -/
def iba_count (key_length : Nat) : Nat :=
  if key_length + 1 > SFMT_N32 then key_length + 1 else SFMT_N32

/-- The state after memset(&m_sfmt, 0x8b, sizeof(sfmt_t)) and the initial
mixing step of sfmt_init_by_array (writes to positions mid, mid + lag, 0). -/
def ibaInit (key_length : Nat) : List Nat :=
  let st := List.replicate SFMT_N32 0x8b8b8b8b
  let r := func1 (st.getD 0 0 ^^^ st.getD iba_mid 0 ^^^ st.getD (SFMT_N32 - 1) 0)
  let st1 := st.set iba_mid (u32 (st.getD iba_mid 0 + r))
  let r1 := u32 (r + key_length)
  let st2 := st1.set (iba_mid + iba_lag) (u32 (st1.getD (iba_mid + iba_lag) 0 + r1))
  st2.set 0 r1

/-- One iteration of the first key-injection loop of sfmt_init_by_array:
r = func1(st[i] ^ st[(i+mid)%N32] ^ st[(i+N32-1)%N32]); st[(i+mid)%N32] += r;
r += init_key[j] + i; st[(i+mid+lag)%N32] += r; st[i] = r; i = (i+1)%N32. -/
def ibaStep1 (key : List Nat) (st : List Nat) (i j : Nat) : List Nat × Nat :=
  let r := func1 (st.getD i 0 ^^^ st.getD ((i + iba_mid) % SFMT_N32) 0 ^^^
    st.getD ((i + SFMT_N32 - 1) % SFMT_N32) 0)
  let st1 := st.set ((i + iba_mid) % SFMT_N32) (u32 (st.getD ((i + iba_mid) % SFMT_N32) 0 + r))
  let r1 := u32 (r + key.getD j 0 + i)
  let st2 := st1.set ((i + iba_mid + iba_lag) % SFMT_N32)
    (u32 (st1.getD ((i + iba_mid + iba_lag) % SFMT_N32) 0 + r1))
  (st2.set i r1, (i + 1) % SFMT_N32)

/-- The first key-injection loop: for (; (j < count) && (j < key_length); j++). -/
def ibaLoop1 (key : List Nat) (count : Nat) (st : List Nat) (i j : Nat) :
    List Nat × Nat × Nat :=
  if j < count ∧ j < key.length then
    let p := ibaStep1 key st i j
    ibaLoop1 key count p.1 p.2 (j + 1)
  else (st, i, j)
termination_by count - j

/-- One iteration of the second key-injection loop (key exhausted): as the
first but with r += i instead of r += init_key[j] + i. -/
def ibaStep2 (st : List Nat) (i : Nat) : List Nat × Nat :=
  let r := func1 (st.getD i 0 ^^^ st.getD ((i + iba_mid) % SFMT_N32) 0 ^^^
    st.getD ((i + SFMT_N32 - 1) % SFMT_N32) 0)
  let st1 := st.set ((i + iba_mid) % SFMT_N32) (u32 (st.getD ((i + iba_mid) % SFMT_N32) 0 + r))
  let r1 := u32 (r + i)
  let st2 := st1.set ((i + iba_mid + iba_lag) % SFMT_N32)
    (u32 (st1.getD ((i + iba_mid + iba_lag) % SFMT_N32) 0 + r1))
  (st2.set i r1, (i + 1) % SFMT_N32)

/-- The second key-injection loop: for (; j < count; j++). -/
def ibaLoop2 (count : Nat) (st : List Nat) (i j : Nat) : List Nat × Nat × Nat :=
  if j < count then
    let p := ibaStep2 st i
    ibaLoop2 count p.1 p.2 (j + 1)
  else (st, i, j)
termination_by count - j

/-- One iteration of the final pass of sfmt_init_by_array:
r = func2(st[i] + st[(i+mid)%N32] + st[(i+N32-1)%N32]); st[(i+mid)%N32] ^= r;
r -= i; st[(i+mid+lag)%N32] ^= r; st[i] = r; i = (i+1)%N32. -/
def ibaStep3 (st : List Nat) (i : Nat) : List Nat × Nat :=
  let r := func2 (u32 (st.getD i 0 + st.getD ((i + iba_mid) % SFMT_N32) 0 +
    st.getD ((i + SFMT_N32 - 1) % SFMT_N32) 0))
  let st1 := st.set ((i + iba_mid) % SFMT_N32) (st.getD ((i + iba_mid) % SFMT_N32) 0 ^^^ r)
  let r1 := sub32 r i
  let st2 := st1.set ((i + iba_mid + iba_lag) % SFMT_N32)
    (st1.getD ((i + iba_mid + iba_lag) % SFMT_N32) 0 ^^^ r1)
  (st2.set i r1, (i + 1) % SFMT_N32)

/-- The final pass: for (j = 0; j < SFMT_N32; j++). -/
def ibaLoop3 (st : List Nat) (i j : Nat) : List Nat × Nat × Nat :=
  if j < SFMT_N32 then
    let p := ibaStep3 st i
    ibaLoop3 p.1 p.2 (j + 1)
  else (st, i, j)
termination_by SFMT_N32 - j

/-- State and rotating index after the initial mixing step and both
key-injection loops of sfmt_init_by_array (count is pre-decremented as in the
source: count-- happens before the loops run). -/
def afterKeyInjection (key : List Nat) : List Nat × Nat :=
  let st0 := ibaInit key.length
  let count := iba_count key.length - 1
  let p1 := ibaLoop1 key count st0 1 0
  let p2 := ibaLoop2 count p1.1 p1.2.1 p1.2.2
  (p2.1, p2.2.1)

/-- SFMersenneTwister::sfmt_init_by_array: the state is fully overwritten
(memset + loops), so the prior instance contents are irrelevant; finishes by
setting idx = SFMT_N32 and certifying the period. -/
def sfmt_init_by_array (key : List Nat) : SfmtState :=
  let p := afterKeyInjection key
  let q := ibaLoop3 p.1 p.2 0
  period_certification { state := q.1, idx := (SFMT_N32 : Int) }

/-- The number of diffusion steps the two key-injection loops perform after
the initial mixing step: the loop counter j after both loops have run
(j starts at 0 and increments once per step). -/
def keyInjectionSteps (key : List Nat) : Nat :=
  let st0 := ibaInit key.length
  let count := iba_count key.length - 1
  let p1 := ibaLoop1 key count st0 1 0
  (ibaLoop2 count p1.1 p1.2.1 p1.2.2).2.2

/-! ### Loop structure of the key-injection phase -/

theorem ibaLoop1_j (key : List Nat) (count : Nat) (st : List Nat) (i j : Nat)
    (h1 : j ≤ count) (h2 : j ≤ key.length) :
    (ibaLoop1 key count st i j).2.2 = min count key.length := by
  rw [ibaLoop1]
  by_cases h : j < count ∧ j < key.length
  · rw [if_pos h]
    exact ibaLoop1_j key count _ _ (j + 1) (by omega) (by omega)
  · rw [if_neg h]
    show j = min count key.length
    omega
termination_by count - j

theorem ibaLoop2_j (count : Nat) (st : List Nat) (i j : Nat) (h : j ≤ count) :
    (ibaLoop2 count st i j).2.2 = count := by
  rw [ibaLoop2]
  by_cases hc : j < count
  · rw [if_pos hc]
    exact ibaLoop2_j count _ _ (j + 1) (by omega)
  · rw [if_neg hc]
    show j = count
    omega
termination_by count - j

theorem iba_count_eq (L : Nat) : iba_count L = max (L + 1) SFMT_N32 := by
  rw [iba_count]
  split <;> omega

theorem keyInjectionSteps_eq (key : List Nat) :
    keyInjectionSteps key = max (key.length + 1) SFMT_N32 - 1 := by
  rw [keyInjectionSteps]
  have h1 := ibaLoop1_j key (iba_count key.length - 1) (ibaInit key.length) 1 0
    (by omega) (by omega)
  rw [ibaLoop2_j _ _ _ _ (by rw [h1]; omega), iba_count_eq]

theorem iba_lag_eq : iba_lag = 11 := by
  norm_num [iba_lag, lagOf, iba_size, SFMT_N]

theorem iba_mid_eq : iba_mid = 306 := by
  norm_num [iba_mid, iba_lag_eq, iba_size, SFMT_N]

/-- Counterexample to claim C5 as stated: with the empty key (L = 0) the
key-injection phase performs 623 diffusion steps after the initial mixing
step, not count = max(L + 1, N32) = 624, because the source decrements count
before entering the loops. -/
theorem claim5_counterexample :
    ¬ keyInjectionSteps [] = max (0 + 1) SFMT_N32 := by
  rw [keyInjectionSteps_eq]
  norm_num [SFMT_N32, SFMT_N]

/-- Claim C5 as amended: sfmt_init_by_array chooses lag by thresholding the
state size in 32-bit words (624 here, so lag = 11; the thresholds of the
selection function are 623, 68 and 39), computes mid = (state_size - lag) / 2
= 306, and after the initial mixing step the key-injection phase runs exactly
max(L + 1, N32) - 1 diffusion steps (the source decrements count once before
the loops), of which the first min(max(L + 1, N32) - 1, L) consume one key
element each, the remainder injecting the running index instead. -/
theorem claim5_array_seeding_schedule (key : List Nat) :
    iba_lag = lagOf (SFMT_N * 4) ∧ iba_lag = 11 ∧
    lagOf 623 = 11 ∧ lagOf 622 = 7 ∧ lagOf 68 = 7 ∧ lagOf 67 = 5 ∧
    lagOf 39 = 5 ∧ lagOf 38 = 3 ∧
    iba_mid = (SFMT_N * 4 - iba_lag) / 2 ∧ iba_mid = 306 ∧
    keyInjectionSteps key = max (key.length + 1) SFMT_N32 - 1 ∧
    (∀ st i, (ibaLoop1 key (iba_count key.length - 1) st i 0).2.2 =
      min (iba_count key.length - 1) key.length) := by
  refine ⟨rfl, iba_lag_eq, by norm_num [lagOf], by norm_num [lagOf], by norm_num [lagOf],
    by norm_num [lagOf], by norm_num [lagOf], by norm_num [lagOf], rfl, iba_mid_eq,
    keyInjectionSteps_eq key, ?_⟩
  intro st i
  exact ibaLoop1_j key _ st i 0 (by omega) (by omega)

/-! ### The final pass as one iterate of length N32 -/

theorem ibaLoop3_iterate (st : List Nat) (i j : Nat) (h : j ≤ SFMT_N32) :
    ibaLoop3 st i j =
      (((fun p => ibaStep3 p.1 p.2)^[SFMT_N32 - j] (st, i)).1,
       ((fun p => ibaStep3 p.1 p.2)^[SFMT_N32 - j] (st, i)).2, SFMT_N32) := by
  rw [ibaLoop3]
  by_cases hc : j < SFMT_N32
  · rw [if_pos hc]
    rw [show SFMT_N32 - j = (SFMT_N32 - (j + 1)) + 1 from by omega,
      Function.iterate_succ_apply]
    exact ibaLoop3_iterate (ibaStep3 st i).1 (ibaStep3 st i).2 (j + 1) (by omega)
  · rw [if_neg hc]
    have hj : j = SFMT_N32 := by omega
    subst hj
    rfl
termination_by SFMT_N32 - j

/-- The final-pass diffusion step as claim C6 is amended: func2 of the wrapped
sum of the three words at the rotating index pattern, XOR-combining the
results into the state at the two lag-offset positions while the word at the
rotating index itself is overwritten with the result, the index advancing
circularly mod N32. -/
def specStep3 (st : List Nat) (i : Nat) : List Nat × Nat :=
  let r := func2 (u32 (st.getD i 0 + st.getD ((i + iba_mid) % SFMT_N32) 0 +
    st.getD ((i + SFMT_N32 - 1) % SFMT_N32) 0))
  let st1 := st.set ((i + iba_mid) % SFMT_N32) (st.getD ((i + iba_mid) % SFMT_N32) 0 ^^^ r)
  let r1 := sub32 r i
  let st2 := st1.set ((i + iba_mid + iba_lag) % SFMT_N32)
    (st1.getD ((i + iba_mid + iba_lag) % SFMT_N32) 0 ^^^ r1)
  (st2.set i r1, (i + 1) % SFMT_N32)

/-- The second diffusion phase as claim C6 describes it: exactly one
additional pass of length N32 of the step function. -/
def specPhase2 (st : List Nat) (i : Nat) : List Nat × Nat :=
  (fun p => specStep3 p.1 p.2)^[SFMT_N32] (st, i)

/-- The final-pass step as claim C6 literally states it: the same rotating
index/lag pattern and func2, but XOR-combining every result into the state,
including at the rotating index i itself, rather than overwriting. -/
def specStep3Xor (st : List Nat) (i : Nat) : List Nat × Nat :=
  let r := func2 (u32 (st.getD i 0 + st.getD ((i + iba_mid) % SFMT_N32) 0 +
    st.getD ((i + SFMT_N32 - 1) % SFMT_N32) 0))
  let st1 := st.set ((i + iba_mid) % SFMT_N32) (st.getD ((i + iba_mid) % SFMT_N32) 0 ^^^ r)
  let r1 := sub32 r i
  let st2 := st1.set ((i + iba_mid + iba_lag) % SFMT_N32)
    (st1.getD ((i + iba_mid + iba_lag) % SFMT_N32) 0 ^^^ r1)
  (st2.set i (st2.getD i 0 ^^^ r1), (i + 1) % SFMT_N32)

/-- A concrete 624-word state exercising one final-pass step. -/
def c6State : List Nat := 1 :: List.replicate 623 0

/-- Counterexample to claim C6 as stated: at state c6State and rotating index
0 the source step writes word 0 with r = 1566083941 (overwrite, psfmt32[i] = r)
whereas an XOR-combining step would produce 1 XOR r = 1566083940, so the final
pass does not XOR-combine at the rotating index. -/
theorem claim6_counterexample : ibaStep3 c6State 0 ≠ specStep3Xor c6State 0 := by
  decide

/-- Claim C6 as amended: after the key-injection phase, sfmt_init_by_array
runs exactly one additional pass of length N32 applying
F2(x) = (x XOR (x >> 27)) * 1566083941 in the same rotating-index/lag pattern
as the first phase, XOR-combining the results into the state at the two
lag-offset positions while overwriting the word at the rotating index itself
(just as the first phase does), then certifies the period. -/
theorem claim6_second_phase (key : List Nat) :
    sfmt_init_by_array key =
      period_certification
        { state := (specPhase2 (afterKeyInjection key).1 (afterKeyInjection key).2).1,
          idx := (SFMT_N32 : Int) } := by
  have h3 := ibaLoop3_iterate (afterKeyInjection key).1 (afterKeyInjection key).2 0 (by omega)
  have hstep : specStep3 = ibaStep3 := rfl
  simp only [sfmt_init_by_array, h3, Nat.sub_zero, specPhase2, hstep]

/-! ### Length preservation through the seeding loops -/

theorem ibaStep1_length (key st : List Nat) (i j : Nat) :
    (ibaStep1 key st i j).1.length = st.length := by
  simp [ibaStep1]

theorem ibaLoop1_length (key : List Nat) (count : Nat) (st : List Nat) (i j : Nat) :
    (ibaLoop1 key count st i j).1.length = st.length := by
  rw [ibaLoop1]
  by_cases h : j < count ∧ j < key.length
  · rw [if_pos h]
    rw [ibaLoop1_length key count _ _ (j + 1), ibaStep1_length]
  · rw [if_neg h]
termination_by count - j

theorem ibaStep2_length (st : List Nat) (i : Nat) :
    (ibaStep2 st i).1.length = st.length := by
  simp [ibaStep2]

theorem ibaLoop2_length (count : Nat) (st : List Nat) (i j : Nat) :
    (ibaLoop2 count st i j).1.length = st.length := by
  rw [ibaLoop2]
  by_cases h : j < count
  · rw [if_pos h]
    rw [ibaLoop2_length count _ _ (j + 1), ibaStep2_length]
  · rw [if_neg h]
termination_by count - j

theorem ibaStep3_length (st : List Nat) (i : Nat) :
    (ibaStep3 st i).1.length = st.length := by
  simp [ibaStep3]

theorem ibaLoop3_length (st : List Nat) (i j : Nat) :
    (ibaLoop3 st i j).1.length = st.length := by
  rw [ibaLoop3]
  by_cases h : j < SFMT_N32
  · rw [if_pos h]
    rw [ibaLoop3_length _ _ (j + 1), ibaStep3_length]
  · rw [if_neg h]
termination_by SFMT_N32 - j

theorem ibaInit_length (L : Nat) : (ibaInit L).length = SFMT_N32 := by
  simp [ibaInit]

theorem afterKeyInjection_length (key : List Nat) :
    (afterKeyInjection key).1.length = SFMT_N32 := by
  simp only [afterKeyInjection]
  rw [ibaLoop2_length, ibaLoop1_length, ibaInit_length]

theorem init_by_array_fold_one (key : List Nat) :
    innerFold (innerOf (sfmt_init_by_array key).state) = 1 := by
  simp only [sfmt_init_by_array]
  apply period_certification_fold_one
  show 0 < (ibaLoop3 (afterKeyInjection key).1 (afterKeyInjection key).2 0).1.length
  rw [ibaLoop3_length, afterKeyInjection_length]
  norm_num [SFMT_N32, SFMT_N]

theorem init_by_array_idx (key : List Nat) :
    (sfmt_init_by_array key).idx = (SFMT_N32 : Int) := by
  simp only [sfmt_init_by_array, period_certification]
  split <;> rfl

/-- Claim C9: calling sfmt_init_by_array with the empty key completes without
the key-injection branch ever running (the first loop returns its arguments
unchanged for every count, state and indices), and produces a period-certified
state whose section-4.4 parity fold is 1, with Index = N32. -/
theorem claim9_empty_key :
    (∀ (count : Nat) (st : List Nat) (i j : Nat), ibaLoop1 [] count st i j = (st, i, j)) ∧
    specFoldBit (specInnerProduct (sfmt_init_by_array []).state) = 1 ∧
    (sfmt_init_by_array []).idx = (SFMT_N32 : Int) := by
  refine ⟨?_, ?_, init_by_array_idx []⟩
  · intro count st i j
    rw [ibaLoop1]
    simp
  · rw [specInnerProduct_eq, ← innerFold_eq_specFoldBit]
    exact init_by_array_fold_one []

/-- Claim C2: after either seeding call (scalar seed, or array seeding with
any key), recomputing the section-4.4 parity fold on the resulting state
yields 1. -/
theorem claim2_period_invariant (s : SfmtState) (seed : Nat) (key : List Nat)
    (hlen : s.state.length = SFMT_N32) :
    specFoldBit (specInnerProduct (sfmt_init_gen_rand seed s).state) = 1 ∧
    specFoldBit (specInnerProduct (sfmt_init_by_array key).state) = 1 := by
  rw [specInnerProduct_eq, specInnerProduct_eq, ← innerFold_eq_specFoldBit,
    ← innerFold_eq_specFoldBit]
  constructor
  · rw [sfmt_init_gen_rand_eq seed s hlen]
    apply period_certification_fold_one
    show 0 < ((List.range SFMT_N32).map (initWord seed)).length
    simp [SFMT_N32, SFMT_N]
  · exact init_by_array_fold_one key

/-- Witness for claim C2 at seed 0, the empty key and a concrete instance. -/
theorem claim2_witness :
    specFoldBit (specInnerProduct (sfmt_init_gen_rand 0 ⟨List.replicate SFMT_N32 0, 0⟩).state) = 1 ∧
    specFoldBit (specInnerProduct (sfmt_init_by_array []).state) = 1 :=
  claim2_period_invariant ⟨List.replicate SFMT_N32 0, 0⟩ 0 [] (by simp)

/-! ### Equality: operator== and operator!= -/

/-- The k-th 128-bit state word (four consecutive 32-bit lanes,
little-endian lane order; idxof is the identity). -/
def word128 (st : List Nat) (k : Nat) : Nat :=
  st.getD (4 * k) 0 + 2 ^ 32 * st.getD (4 * k + 1) 0 + 2 ^ 64 * st.getD (4 * k + 2) 0 +
    2 ^ 96 * st.getD (4 * k + 3) 0

/-- The comparison loop of operator==: compare the SFMT_N 128-bit words in
order, returning false at the first mismatch (the SSE2 byte-compare and
0xffff move-mask test of one 128-bit word is bitwise equality of that word). -/
def eqLoop (a b : List Nat) (k : Nat) : Bool :=
  if k < SFMT_N then
    if word128 a k == word128 b k then eqLoop a b (k + 1) else false
  else true
termination_by SFMT_N - k

/-- SFMersenneTwister::operator==: false if the idx fields differ, else run
the word comparison loop. -/
def sfmtBEq (x y : SfmtState) : Bool :=
  if x.idx ≠ y.idx then false else eqLoop x.state y.state 0

/-- SFMersenneTwister::operator!=: the logical negation of operator==. -/
def sfmtBNe (x y : SfmtState) : Bool := !sfmtBEq x y

theorem eqLoop_true_iff (a b : List Nat) (k : Nat) :
    eqLoop a b k = true ↔ ∀ m, k ≤ m → m < SFMT_N → word128 a m = word128 b m := by
  rw [eqLoop]
  by_cases hk : k < SFMT_N
  · rw [if_pos hk]
    by_cases hw : word128 a k = word128 b k
    · rw [if_pos (by simpa using hw), eqLoop_true_iff a b (k + 1)]
      constructor
      · intro h m hm1 hm2
        by_cases hmk : m = k
        · subst hmk
          exact hw
        · exact h m (by omega) hm2
      · intro h m hm1 hm2
        exact h m (by omega) hm2
    · rw [if_neg (by simpa using hw)]
      constructor
      · intro h
        exact (Bool.false_ne_true h).elim
      · intro hall
        exact absurd (hall k le_rfl hk) hw
  · rw [if_neg hk]
    constructor
    · intro _ m hm1 hm2
      omega
    · intro _
      rfl
termination_by SFMT_N - k

theorem sfmtBEq_refl (s : SfmtState) : sfmtBEq s s = true := by
  rw [sfmtBEq, if_neg (by simp)]
  rw [eqLoop_true_iff]
  intro m _ _
  rfl

/-- Claim C8: A == B returns true iff the Index fields are equal and every
128-bit State Word of A equals the corresponding State Word of B bit for bit
(the loop short-circuits on the first mismatching word), and A != B returns
exactly the logical negation of A == B. -/
theorem claim8_equality (x y : SfmtState) :
    (sfmtBEq x y = true ↔
      x.idx = y.idx ∧ ∀ k, k < SFMT_N → word128 x.state k = word128 y.state k) ∧
    sfmtBNe x y = !sfmtBEq x y := by
  refine ⟨?_, rfl⟩
  rw [sfmtBEq]
  by_cases hidx : x.idx = y.idx
  · rw [if_neg (by simpa using hidx), eqLoop_true_iff]
    constructor
    · intro h
      exact ⟨hidx, fun k hk => h k (by omega) hk⟩
    · intro h m _ hm
      exact h.2 m hm
  · rw [if_pos hidx]
    constructor
    · intro h
      exact (Bool.false_ne_true h).elim
    · intro h
      exact absurd h.1 hidx

/-! ### Bulk generation.  gen_rand_array and the recurrence constants live in
SFMT-common.h / SFMT-sse2-msc.h / SFMT-params.h, which are not under src/;
sections 4.1 and 4.5 of the spec describe them, and the definitions below are
modelled from those sections with the published MEXP-19937 parameter set. -/

/-- Modelled from the spec: the pick-up position POS1 of the section 4.1
recurrence (SFMT-params.h, MEXP-19937 set). -/
def SFMT_POS1 : Nat := 122

/-- Modelled from the spec: the per-lane left shift SL1 (SFMT-params.h). -/
def SFMT_SL1 : Nat := 18

/-- Modelled from the spec: the across-lanes left shift SL2, in bytes
(SFMT-params.h). -/
def SFMT_SL2 : Nat := 1

/-- Modelled from the spec: the per-lane right shift SR1 (SFMT-params.h). -/
def SFMT_SR1 : Nat := 11

/-- Modelled from the spec: the across-lanes right shift SR2, in bytes
(SFMT-params.h). -/
def SFMT_SR2 : Nat := 1

/-- Modelled from the spec: the fixed 128-bit mask MSK1..MSK4 of the
recurrence, lanes packed little-endian (SFMT-params.h). -/
def SFMT_MSK128 : Nat :=
  0xdfffffef + 2 ^ 32 * 0xddfecb7f + 2 ^ 64 * 0xbffaffff + 2 ^ 96 * 0xbffffff6

/-- Apply f to each of the four 32-bit lanes of a 128-bit value. -/
def mapLanes (f : Nat → Nat) (x : Nat) : Nat :=
  f (x % 2 ^ 32) + 2 ^ 32 * f ((x >>> 32) % 2 ^ 32) + 2 ^ 64 * f ((x >>> 64) % 2 ^ 32) +
    2 ^ 96 * f ((x >>> 96) % 2 ^ 32)

/-- Modelled from the spec (section 4.1): one application of the recurrence:
XOR of word a, a shifted across lanes left by SL2 bytes, word b shifted right
per lane by SR1 and masked, word c shifted across lanes right by SR2 bytes,
and word d shifted left per lane by SL1. -/
def doRecursion (a b c d : Nat) : Nat :=
  a ^^^ ((a <<< (8 * SFMT_SL2)) % 2 ^ 128) ^^^
    (mapLanes (fun t => t >>> SFMT_SR1) b &&& SFMT_MSK128) ^^^
    (c >>> (8 * SFMT_SR2)) ^^^ mapLanes (fun t => (t <<< SFMT_SL1) % 2 ^ 32) d

/-- Modelled from the spec (section 4.1): the extended word sequence of a bulk
generation: words below N are the current state; beyond that each word is the
recurrence applied to the words N back, N - POS1 back, 2 back and 1 back, the
output buffer acting as a virtual extension of the state array. -/
def wSeq (st : List Nat) (i : Nat) : Nat :=
  if i < SFMT_N then word128 st i
  else
    doRecursion (wSeq st (i - SFMT_N)) (wSeq st (i - SFMT_N + SFMT_POS1))
      (wSeq st (i - 2)) (wSeq st (i - 1))
termination_by i
decreasing_by
  all_goals
    have hN : SFMT_N = 156 := rfl
    have hP : SFMT_POS1 = 122 := rfl
    omega

/-- Split 128-bit words into their 32-bit lanes, in order. -/
def unpack32 (ws : List Nat) : List Nat :=
  ws.foldr (fun w acc =>
    w % 2 ^ 32 :: (w >>> 32) % 2 ^ 32 :: (w >>> 64) % 2 ^ 32 :: (w >>> 96) % 2 ^ 32 :: acc) []

/-- Split 128-bit words into their 64-bit lanes, in order. -/
def unpack64 (ws : List Nat) : List Nat :=
  ws.foldr (fun w acc => w % 2 ^ 64 :: (w >>> 64) % 2 ^ 64 :: acc) []

/-- Modelled from the spec (sections 4.1 and 4.5): produce count 128-bit
words of output by the recurrence, and copy the last N produced words back as
the new state (count >= N under the fill preconditions). -/
def gen_rand_array (st : List Nat) (count : Nat) : List Nat × List Nat :=
  ((List.range count).map (fun k => wSeq st (SFMT_N + k)),
   unpack32 ((List.range SFMT_N).map (fun j => wSeq st (count + j))))

/-- SFMersenneTwister::sfmt_fill_array32: asserts idx == SFMT_N32,
size % 4 == 0 and size >= SFMT_N32; a violated assertion is a fatal abort
(modelled as none, no recovery, no error code).  Otherwise generates size
32-bit words via gen_rand_array(array, size / 4) and leaves idx = SFMT_N32. -/
def sfmt_fill_array32 (s : SfmtState) (size : Int) : Option (SfmtState × List Nat) :=
  if s.idx = (SFMT_N32 : Int) ∧ size % 4 = 0 ∧ (SFMT_N32 : Int) ≤ size then
    some ({ state := (gen_rand_array s.state (size.toNat / 4)).2, idx := (SFMT_N32 : Int) },
      unpack32 (gen_rand_array s.state (size.toNat / 4)).1)
  else none

/-- SFMersenneTwister::sfmt_fill_array64: asserts idx == SFMT_N32,
size % 2 == 0 and size >= SFMT_N64; otherwise generates size 64-bit words via
gen_rand_array(array, size / 2) and leaves idx = SFMT_N32. -/
def sfmt_fill_array64 (s : SfmtState) (size : Int) : Option (SfmtState × List Nat) :=
  if s.idx = (SFMT_N32 : Int) ∧ size % 2 = 0 ∧ (SFMT_N64 : Int) ≤ size then
    some ({ state := (gen_rand_array s.state (size.toNat / 2)).2, idx := (SFMT_N32 : Int) },
      unpack64 (gen_rand_array s.state (size.toNat / 2)).1)
  else none

theorem N32_int : ((SFMT_N32 : Nat) : Int) = 624 := by norm_num [SFMT_N32, SFMT_N]

theorem N64_int : ((SFMT_N64 : Nat) : Int) = 312 := by norm_num [SFMT_N64, SFMT_N]

/-- Claim C7: sfmt_fill_array32 fails fast (fatal assertion, modelled as
none) unless Index = N32, the size is a positive multiple of 4 and at least
N32; sfmt_fill_array64 fails fast unless Index = N32, the size is a positive
multiple of 2 and at least N64; whenever the preconditions hold no assertion
fires and a result is produced. -/
theorem claim7_fill_preconditions (s : SfmtState) (size : Int) :
    ((sfmt_fill_array32 s size).isSome = true ↔
      s.idx = (SFMT_N32 : Int) ∧ size % 4 = 0 ∧ 0 < size ∧ (SFMT_N32 : Int) ≤ size) ∧
    ((sfmt_fill_array64 s size).isSome = true ↔
      s.idx = (SFMT_N32 : Int) ∧ size % 2 = 0 ∧ 0 < size ∧ (SFMT_N64 : Int) ≤ size) := by
  constructor
  · rw [sfmt_fill_array32, N32_int]
    by_cases h : s.idx = 624 ∧ size % 4 = 0 ∧ (624 : Int) ≤ size
    · rw [if_pos h]
      simp only [Option.isSome_some, true_iff]
      exact ⟨h.1, h.2.1, by omega, h.2.2⟩
    · rw [if_neg h]
      simp only [Option.isSome_none]
      constructor
      · intro hF
        exact (Bool.false_ne_true hF).elim
      · intro hR
        exact absurd ⟨hR.1, hR.2.1, hR.2.2.2⟩ h
  · rw [sfmt_fill_array64, N32_int, N64_int]
    by_cases h : s.idx = 624 ∧ size % 2 = 0 ∧ (312 : Int) ≤ size
    · rw [if_pos h]
      simp only [Option.isSome_some, true_iff]
      exact ⟨h.1, h.2.1, by omega, h.2.2⟩
    · rw [if_neg h]
      simp only [Option.isSome_none]
      constructor
      · intro hF
        exact (Bool.false_ne_true hF).elim
      · intro hR
        exact absurd ⟨hR.1, hR.2.1, hR.2.2.2⟩ h

/-! ### Determinism across call sequences -/

/-- One call of the mutating public interface: either seeding operation or
either bulk-fill operation, with its arguments. -/
inductive SfmtCall where
  | initGenRand (seed : Nat)
  | initByArray (key : List Nat)
  | fillArray32 (size : Int)
  | fillArray64 (size : Int)
deriving DecidableEq, Repr

/-- Execute one call against an instance, returning the new instance and the
output words the call wrote into the caller buffer (seeding calls write
none; a bulk fill whose assertion fires aborts and produces nothing). -/
def stepCall (s : SfmtState) : SfmtCall → SfmtState × List Nat
  | .initGenRand seed => (sfmt_init_gen_rand seed s, [])
  | .initByArray key => (sfmt_init_by_array key, [])
  | .fillArray32 size =>
    match sfmt_fill_array32 s size with
    | some p => p
    | none => (s, [])
  | .fillArray64 size =>
    match sfmt_fill_array64 s size with
    | some p => p
    | none => (s, [])

/-- Drive an instance through a call sequence, recording the instance and
output words after each step. -/
def runCalls (s : SfmtState) : List SfmtCall → List (SfmtState × List Nat)
  | [] => []
  | c :: cs => stepCall s c :: runCalls (stepCall s c).1 cs

theorem mem_zip_self {α : Type} (l : List α) (p : α × α) (h : p ∈ l.zip l) :
    p.1 = p.2 := by
  induction l with
  | nil => cases h
  | cons a t ih =>
    rw [List.zip_cons_cons] at h
    rcases List.mem_cons.mp h with h1 | h2
    · rw [h1]
    · exact ih h2

theorem sfmt_init_gen_rand_indep (seed : Nat) (a b : SfmtState)
    (ha : a.state.length = SFMT_N32) (hb : b.state.length = SFMT_N32) :
    sfmt_init_gen_rand seed a = sfmt_init_gen_rand seed b := by
  rw [sfmt_init_gen_rand_eq seed a ha, sfmt_init_gen_rand_eq seed b hb]

/-- Claim C1: two independently constructed instances (arbitrary prior
contents of the fixed-size state) seeded with the same 32-bit seed are equal;
driven through any identical sequence of seeding and bulk-fill calls they
produce identical output words and identical states, and compare equal under
operator== after each step. -/
theorem claim1_determinism (a b : SfmtState) (seed : Nat) (calls : List SfmtCall)
    (ha : a.state.length = SFMT_N32) (hb : b.state.length = SFMT_N32) :
    sfmt_init_gen_rand seed a = sfmt_init_gen_rand seed b ∧
    sfmtBEq (sfmt_init_gen_rand seed a) (sfmt_init_gen_rand seed b) = true ∧
    runCalls (sfmt_init_gen_rand seed a) calls = runCalls (sfmt_init_gen_rand seed b) calls ∧
    ∀ p ∈ (runCalls (sfmt_init_gen_rand seed a) calls).zip
        (runCalls (sfmt_init_gen_rand seed b) calls),
      p.1.2 = p.2.2 ∧ sfmtBEq p.1.1 p.2.1 = true := by
  have h := sfmt_init_gen_rand_indep seed a b ha hb
  refine ⟨h, ?_, ?_, ?_⟩
  · rw [h]
    exact sfmtBEq_refl _
  · rw [h]
  · rw [h]
    intro p hp
    have hpe := mem_zip_self _ p hp
    rw [hpe]
    exact ⟨rfl, sfmtBEq_refl _⟩

/-- Witness for claim C1: two concrete instances with different junk contents
and junk indices, seed 42, and a call sequence with one bulk fill of each
width and a reseeding. -/
theorem claim1_witness :
    sfmt_init_gen_rand 42 ⟨List.replicate SFMT_N32 0, 0⟩ =
      sfmt_init_gen_rand 42 ⟨List.replicate SFMT_N32 7, 5⟩ ∧
    sfmtBEq (sfmt_init_gen_rand 42 ⟨List.replicate SFMT_N32 0, 0⟩)
      (sfmt_init_gen_rand 42 ⟨List.replicate SFMT_N32 7, 5⟩) = true ∧
    runCalls (sfmt_init_gen_rand 42 ⟨List.replicate SFMT_N32 0, 0⟩)
        [SfmtCall.fillArray32 624, SfmtCall.initByArray [3, 1], SfmtCall.fillArray64 312] =
      runCalls (sfmt_init_gen_rand 42 ⟨List.replicate SFMT_N32 7, 5⟩)
        [SfmtCall.fillArray32 624, SfmtCall.initByArray [3, 1], SfmtCall.fillArray64 312] ∧
    ∀ p ∈ (runCalls (sfmt_init_gen_rand 42 ⟨List.replicate SFMT_N32 0, 0⟩)
        [SfmtCall.fillArray32 624, SfmtCall.initByArray [3, 1], SfmtCall.fillArray64 312]).zip
        (runCalls (sfmt_init_gen_rand 42 ⟨List.replicate SFMT_N32 7, 5⟩)
        [SfmtCall.fillArray32 624, SfmtCall.initByArray [3, 1], SfmtCall.fillArray64 312]),
      p.1.2 = p.2.2 ∧ sfmtBEq p.1.1 p.2.1 = true :=
  claim1_determinism ⟨List.replicate SFMT_N32 0, 0⟩ ⟨List.replicate SFMT_N32 7, 5⟩ 42
    [SfmtCall.fillArray32 624, SfmtCall.initByArray [3, 1], SfmtCall.fillArray64 312]
    (by simp) (by simp)
